import Mathlib

/-!
Verification of the GraphPC data-flow graph construction core.

The definitions below are a shallow embedding of the program under
`src/graph_construct/`:
  * `variable_table.py` (scope tables, lazy inheritance, pop / merge-and-pop),
  * the data-flow simulator of `c_parser.py` and `cpp_parser.py` over a
    fragment of the syntax-node classes that the claims mention,
  * the pre-order index assignment `Node.assign_idx`,
  * the shadow-tree construction `Node.__init__` of both parsers.

Syntax nodes are identified by their index (a natural number); a node's
mutable `last_read` / `last_write` sets become a map from indices to pairs of
finite sets; Python's ordered dicts become association lists with
update-in-place insertion; raising becomes `Except.error`.
-/

namespace GraphPC

/-! ## variable_table.py -/

def SPECIAL_TOKENS : List String := ["cin", "cout", "endl"]

def UPDATE_MODE : List String := ["ro", "wo", "rw"]

/-- One variable unit: the pair of last-read / last-write node-reference sets
(`{"lr": ..., "lw": ...}` in the source). -/
structure VUnit where
  lr : Finset Nat
  lw : Finset Nat
deriving DecidableEq

/-- A Python dict from token to unit, as an ordered association list. -/
abbrev Dict := List (String × VUnit)

/-- Dict lookup (`token in d` / `d[token]`). -/
def dlookup : Dict → String → Option VUnit
  | [], _ => none
  | (k, v) :: d, t => if k = t then some v else dlookup d t

/-- Dict assignment `d[token] = u`: updates in place when the key exists,
appends otherwise (Python dict semantics). -/
def dinsert : Dict → String → VUnit → Dict
  | [], t, u => [(t, u)]
  | (k, v) :: d, t, u => if k = t then (k, u) :: d else (k, v) :: dinsert d t u

/-- One `VariableTable`: its `local_variables` and `outer_variables` dicts.
The `father` / `child` pointers become the list structure of `Chain`. -/
structure Frame where
  locals : Dict
  outers : Dict
deriving DecidableEq

/-- A chain of scopes, innermost first; the tail is the father chain. -/
abbrev Chain := List Frame

/-- Mutable per-node analysis state: the node's own `last_read` and
`last_write` sets. -/
structure NodeState where
  last_read : Finset Nat
  last_write : Finset Nat
deriving DecidableEq

/-- The analysis state of every node, keyed by node index. -/
abbrev NodeMap := Nat → NodeState

/-- Point update of a `NodeMap`. -/
def updNode (σ : NodeMap) (i : Nat) (s : NodeState) : NodeMap :=
  fun j => if j = i then s else σ j

/-- `VariableTable.find_reference`: search locals, then the memoized outer
cache, then delegate to the father; a successful ancestor hit is copied into
this scope's outer cache (lazy inheritance).  Returns the found unit together
with the whole chain after cache fills. -/
def find_reference : Chain → String → Option VUnit × Chain
  | [], _ => (none, [])
  | f :: rest, tok =>
    match dlookup f.locals tok with
    | some u => (some u, f :: rest)
    | none =>
      match dlookup f.outers tok with
      | some u => (some u, f :: rest)
      | none =>
        match find_reference rest tok with
        | (some u, rest') => (some u, { f with outers := dinsert f.outers tok u } :: rest')
        | (none, rest') => (none, f :: rest')

/-- `VariableTable.add_reference`: create or overwrite a local binding seeded
with `{lr = {node}, lw = {node}}`; special tokens are ignored. -/
def add_reference (c : Chain) (tok : String) (node : Nat) : Chain :=
  if tok ∈ SPECIAL_TOKENS then c
  else
    match c with
    | [] => []
    | f :: rest => { f with locals := dinsert f.locals tok ⟨{node}, {node}⟩ } :: rest

/-- After a successful `find_reference` the returned unit is aliased into the
head frame (its locals when the token is local, its outers otherwise); an
in-place mutation of that unit writes to that slot. -/
def write_unit : Chain → String → VUnit → Chain
  | [], _, _ => []
  | f :: rest, tok, u =>
    if (dlookup f.locals tok).isSome then { f with locals := dinsert f.locals tok u } :: rest
    else { f with outers := dinsert f.outers tok u } :: rest

/-- `VariableTable.find_and_update`: special tokens return immediately; an
unresolved token raises; an invalid mode raises; otherwise the unit's sets are
attached (unioned) onto the node and the unit is replaced according to the
mode. -/
def find_and_update (c : Chain) (σ : NodeMap) (tok : String) (node : Nat) (mode : String) :
    Except String (Chain × NodeMap) :=
  if tok ∈ SPECIAL_TOKENS then .ok (c, σ)
  else
    match find_reference c tok with
    | (none, _) => .error (tok ++ " not found")
    | (some u, c1) =>
      if mode ∈ UPDATE_MODE then
        let s := σ node
        let σ1 := updNode σ node ⟨s.last_read ∪ u.lr, s.last_write ∪ u.lw⟩
        let u1 : VUnit :=
          if mode = "ro" then ⟨{node}, u.lw⟩
          else if mode = "wo" then ⟨u.lr, {node}⟩
          else ⟨{node}, {node}⟩
        .ok (write_unit c1 tok u1, σ1)
      else .error (mode ++ " is not an available update mode")

/-- The loop body of `VariableTable.pop_self`: iterate the popped scope's
outer cache `l`, writing each unit into the father's locals when the father
has the token locally, else into the father's outers when the token is in the
popped scope's own `outer_variables` dict `fouters` (the test the source
performs), else raise. -/
def pop_into (fouters : Dict) : Dict → Frame → Except String Frame
  | [], g => .ok g
  | (tok, u) :: l, g =>
    if (dlookup g.locals tok).isSome then
      pop_into fouters l { g with locals := dinsert g.locals tok u }
    else if (dlookup fouters tok).isSome then
      pop_into fouters l { g with outers := dinsert g.outers tok u }
    else .error ("Outer variable " ++ tok ++ " is not found in outer tables")

/-- `VariableTable.pop_self`: discard the head scope, writing its outer cache
back into the father. -/
def pop_self : Chain → Except String Chain
  | f :: g :: rest =>
    match pop_into f.outers f.outers g with
    | .ok g1 => .ok (g1 :: rest)
    | .error e => .error e
  | _ => .error "pop_self without father"

/-- The loop body of `VariableTable.merge_and_pop_self`: union each unit of
the popped scope's outer cache into the father's binding. -/
def merge_into : Dict → Frame → Except String Frame
  | [], g => .ok g
  | (tok, u) :: l, g =>
    match dlookup g.locals tok with
    | some gu => merge_into l { g with locals := dinsert g.locals tok ⟨gu.lr ∪ u.lr, gu.lw ∪ u.lw⟩ }
    | none =>
      match dlookup g.outers tok with
      | some gu => merge_into l { g with outers := dinsert g.outers tok ⟨gu.lr ∪ u.lr, gu.lw ∪ u.lw⟩ }
      | none => .error ("Outer variable " ++ tok ++ " is not found in outer tables")

/-- `VariableTable.merge_and_pop_self`: discard the head scope, unioning its
outer cache into the father. -/
def merge_and_pop_self : Chain → Except String Chain
  | f :: g :: rest =>
    match merge_into f.outers g with
    | .ok g1 => .ok (g1 :: rest)
    | .error e => .error e
  | _ => .error "merge_and_pop_self without father"

/-! ## Basic lemmas about dicts and lookup -/

theorem dlookup_dinsert_self (d : Dict) (t : String) (u : VUnit) :
    dlookup (dinsert d t u) t = some u := by
  induction d with
  | nil => simp [dinsert, dlookup]
  | cons p d ih =>
    obtain ⟨k, v⟩ := p
    by_cases h : k = t
    · subst h; simp [dinsert, dlookup]
    · simp [dinsert, dlookup, h, ih]

theorem dlookup_dinsert_ne (d : Dict) {t k : String} (h : k ≠ t) (u : VUnit) :
    dlookup (dinsert d t u) k = dlookup d k := by
  induction d with
  | nil =>
    simp only [dinsert, dlookup]
    rw [if_neg (fun hh : t = k => h hh.symm)]
  | cons p d ih =>
    obtain ⟨k', v⟩ := p
    by_cases h' : k' = t
    · subst h'
      simp only [dinsert, if_pos rfl, dlookup]
      rw [if_neg (fun hh : k' = k => h hh.symm), if_neg (fun hh : k' = k => h hh.symm)]
    · simp only [dinsert, if_neg h', dlookup]
      split
      · rfl
      · exact ih

theorem dlookup_isSome_of_mem {d : Dict} {tok : String} {u : VUnit}
    (h : (tok, u) ∈ d) : (dlookup d tok).isSome := by
  induction d with
  | nil => cases h
  | cons p d ih =>
    obtain ⟨k, v⟩ := p
    rcases List.mem_cons.mp h with h1 | h1
    · cases h1; simp [dlookup]
    · by_cases hk : k = tok
      · simp [dlookup, hk]
      · simp [dlookup, hk]; exact ih h1

/-! ## Basic lemmas about find_reference -/

/-- A failed lookup performs no cache fill. -/
theorem find_reference_none (c : Chain) (t : String)
    (h : (find_reference c t).1 = none) : find_reference c t = (none, c) := by
  induction c with
  | nil => simp [find_reference]
  | cons f rest ih =>
    simp only [find_reference] at h ⊢
    cases hl : dlookup f.locals t with
    | some u => simp [hl] at h
    | none =>
      cases ho : dlookup f.outers t with
      | some u => simp [hl, ho] at h
      | none =>
        simp only [hl, ho] at h ⊢
        cases hr : find_reference rest t with
        | mk r rest' =>
          cases r with
          | some u => simp [hr] at h
          | none =>
            have := ih (by simp [hr])
            rw [hr] at this
            simp at this
            simp [hr, this]

/-- A successful lookup leaves the token resolvable at the head of the
returned chain, and looking it up again returns the same unit with no
further change. -/
theorem find_reference_stable {c c' : Chain} {t : String} {u : VUnit}
    (h : find_reference c t = (some u, c')) :
    find_reference c' t = (some u, c') := by
  induction c generalizing c' with
  | nil => simp [find_reference] at h
  | cons f rest ih =>
    simp only [find_reference] at h
    cases hl : dlookup f.locals t with
    | some v =>
      simp [hl] at h
      obtain ⟨h1, h2⟩ := h
      subst h1; subst h2
      simp [find_reference, hl]
    | none =>
      cases ho : dlookup f.outers t with
      | some v =>
        simp [hl, ho] at h
        obtain ⟨h1, h2⟩ := h
        subst h1; subst h2
        simp [find_reference, hl, ho]
      | none =>
        simp only [hl, ho] at h
        cases hr : find_reference rest t with
        | mk r rest' =>
          cases r with
          | none => rw [hr] at h; simp at h
          | some v =>
            rw [hr] at h
            simp at h
            obtain ⟨h1, h2⟩ := h
            subst h1
            subst h2
            simp [find_reference, hl, dlookup_dinsert_self]

/-- A lookup of one token does not change whether another token resolves,
nor to what. -/
theorem find_reference_other {c : Chain} {t : String} (t2 : String) (hne : t2 ≠ t) :
    (find_reference (find_reference c t).2 t2).1 = (find_reference c t2).1 := by
  induction c with
  | nil => simp [find_reference]
  | cons f rest ih =>
    simp only [find_reference]
    cases hl : dlookup f.locals t with
    | some v => simp [find_reference, hl]
    | none =>
      cases ho : dlookup f.outers t with
      | some v => simp [find_reference, hl, ho]
      | none =>
        cases hr : find_reference rest t with
        | mk r rest' =>
          cases r with
          | none =>
            have heq : rest' = rest := by
              have h0 := find_reference_none rest t (by rw [hr])
              rw [hr] at h0
              exact (Prod.mk.injEq _ _ _ _).mp h0.symm |>.2.symm
            subst heq
            rfl
          | some v =>
            have hthis := ih
            rw [hr] at hthis
            simp only at hthis
            simp only [find_reference, dlookup_dinsert_ne _ hne]
            cases dlookup f.locals t2 with
            | some w => simp
            | none =>
              cases dlookup f.outers t2 with
              | some w => simp
              | none =>
                simp only []
                cases h2 : find_reference rest' t2 with
                | mk r2 c2 =>
                  cases h3 : find_reference rest t2 with
                  | mk r3 c3 =>
                    rw [h2, h3] at hthis
                    simp at hthis
                    subst hthis
                    cases r2 <;> simp

/-- A token found in the head frame resolves there with no cache fill. -/
theorem find_reference_head_locals {f : Frame} {t : String} {u : VUnit}
    (h : dlookup f.locals t = some u) (rest : Chain) :
    find_reference (f :: rest) t = (some u, f :: rest) := by
  simp [find_reference, h]

/-- A token found in the head frame's outer cache resolves there with no
cache fill. -/
theorem find_reference_head_outers {f : Frame} {t : String} {u : VUnit}
    (hl : dlookup f.locals t = none) (h : dlookup f.outers t = some u) (rest : Chain) :
    find_reference (f :: rest) t = (some u, f :: rest) := by
  simp [find_reference, hl, h]

/-- After a successful lookup, the returned chain is nonempty and its head
holds the unit, in its locals or (with locals missing the token) its outers. -/
theorem find_reference_shape {c c' : Chain} {t : String} {u : VUnit}
    (h : find_reference c t = (some u, c')) :
    ∃ g rest, c' = g :: rest ∧
      (dlookup g.locals t = some u ∨
        (dlookup g.locals t = none ∧ dlookup g.outers t = some u)) := by
  induction c generalizing c' with
  | nil => simp [find_reference] at h
  | cons f rest ih =>
    simp only [find_reference] at h
    cases hl : dlookup f.locals t with
    | some v =>
      simp [hl] at h
      exact ⟨f, rest, by simp [h.2.symm], Or.inl (by rw [hl, h.1])⟩
    | none =>
      cases ho : dlookup f.outers t with
      | some v =>
        simp [hl, ho] at h
        exact ⟨f, rest, by simp [h.2.symm], Or.inr ⟨hl, by rw [ho, h.1]⟩⟩
      | none =>
        simp only [hl, ho] at h
        cases hr : find_reference rest t with
        | mk r rest' =>
          cases r with
          | none => rw [hr] at h; simp at h
          | some v =>
            rw [hr] at h
            simp at h
            obtain ⟨h1, h2⟩ := h
            subst h1
            exact ⟨_, rest', h2.symm, Or.inr ⟨hl, dlookup_dinsert_self _ _ _⟩⟩

/-- Writing the aliased unit back and then resolving the token returns the
written unit, again with no further chain change. -/
theorem find_reference_write_unit {g : Frame} {t : String} {u : VUnit}
    (h : dlookup g.locals t = some u ∨
      (dlookup g.locals t = none ∧ dlookup g.outers t = some u))
    (rest : Chain) (u' : VUnit) :
    find_reference (write_unit (g :: rest) t u') t =
      (some u', write_unit (g :: rest) t u') := by
  rcases h with h | ⟨h1, h2⟩
  · simp only [write_unit, h, Option.isSome_some, if_pos]
    exact find_reference_head_locals (by simp [dlookup_dinsert_self]) rest
  · simp only [write_unit, h1, Option.isSome_none, Bool.false_eq_true, if_neg, if_false]
    exact find_reference_head_outers (f := { g with outers := dinsert g.outers t u' }) h1
      (by simp [dlookup_dinsert_self]) rest

/-! ## The syntax-node fragment of c_parser.py / cpp_parser.py

Each constructor is one grammar kind handled by `NormalNode.simulate_data_flow`
or by a dedicated statement class (`CompoundStatement`, `IfStatement`,
`ForStatement`).  A node carries its pre-order index; identifier nodes carry
their token text.  `num`/`prim` stand for `number_literal`/`primitive_type`,
which are not in `ATOM_TYPES` and therefore forward to their (absent) named
children. -/

inductive CNode where
  | ident (idx : Nat) (tok : String)
  | num (idx : Nat)
  | prim (idx : Nat)
  | binop (idx : Nat) (l r : CNode)
  | assign (idx : Nat) (lhs rhs : CNode)
  | updateExpr (idx : Nat) (operand : CNode)
  | condExpr (idx : Nat) (cnd thn els : CNode)
  | exprStmt (idx : Nat) (es : List CNode)
  | declStmt (idx : Nat) (ds : List CNode)
  | initDecl (idx : Nat) (l r : CNode)
  | compound (idx : Nat) (stmts : List CNode)
  | ifStmt (idx : Nat) (cnd : CNode) (branches : List CNode)
  | forStmt (idx : Nat) (ini cnd upd : Option CNode) (body : CNode)

/-- The tree-sitter type tag of a node (`self.type`). -/
def typeOf : CNode → String
  | .ident .. => "identifier"
  | .num .. => "number_literal"
  | .prim .. => "primitive_type"
  | .binop .. => "binary_expression"
  | .assign .. => "assignment_expression"
  | .updateExpr .. => "update_expression"
  | .condExpr .. => "conditional_expression"
  | .exprStmt .. => "expression_statement"
  | .declStmt .. => "declaration"
  | .initDecl .. => "init_declarator"
  | .compound .. => "compound_statement"
  | .ifStmt .. => "if_statement"
  | .forStmt .. => "for_statement"

/-- The node's index (`self.idx`). -/
def idxOf : CNode → Nat
  | .ident idx _ | .num idx | .prim idx | .binop idx _ _ | .assign idx _ _
  | .updateExpr idx _ | .condExpr idx _ _ _ | .exprStmt idx _ | .declStmt idx _
  | .initDecl idx _ _ | .compound idx _ | .ifStmt idx _ _ | .forStmt idx _ _ _ _ => idx

/-- The node's source text, for the fragment only needed on identifiers
(`self.token`). -/
def tokOf : CNode → String
  | .ident _ tok => tok
  | _ => ""

/-- `find_left_most` of the assignment arm: descend first children to the
leftmost leaf and test whether it is a type name. -/
def leftmost_type : CNode → String
  | .ident _ _ => "identifier"
  | .num _ => "number_literal"
  | .prim _ => "primitive_type"
  | .binop _ l _ => leftmost_type l
  | .assign _ l _ => leftmost_type l
  | .updateExpr _ e => leftmost_type e
  | .condExpr _ a _ _ => leftmost_type a
  | .exprStmt _ [] => "expression_statement"
  | .exprStmt _ (e :: _) => leftmost_type e
  | .declStmt _ [] => "declaration"
  | .declStmt _ (d :: _) => leftmost_type d
  | .initDecl _ l _ => leftmost_type l
  | .compound _ _ => "\x7b"
  | .ifStmt _ _ _ => "if"
  | .forStmt _ _ _ _ _ => "for"

def find_left_most (n : CNode) : Bool :=
  leftmost_type n = "primitive_type" || leftmost_type n = "dependent_type"

mutual

/-- `Node.get_named_leaf`: the named leaves of the subtree, left to right;
a node with no named children is itself a named leaf. -/
def get_named_leaf : CNode → List CNode
  | n@(.ident _ _) => [n]
  | n@(.num _) => [n]
  | n@(.prim _) => [n]
  | .binop _ l r => get_named_leaf l ++ get_named_leaf r
  | .assign _ l r => get_named_leaf l ++ get_named_leaf r
  | .updateExpr _ e => get_named_leaf e
  | .condExpr _ a b c => get_named_leaf a ++ get_named_leaf b ++ get_named_leaf c
  | n@(.exprStmt _ []) => [n]
  | .exprStmt _ (e :: es) => get_named_leaf e ++ leaves_list es
  | n@(.declStmt _ []) => [n]
  | .declStmt _ (d :: ds) => get_named_leaf d ++ leaves_list ds
  | .initDecl _ l r => get_named_leaf l ++ get_named_leaf r
  | n@(.compound _ []) => [n]
  | .compound _ (s :: ss) => get_named_leaf s ++ leaves_list ss
  | .ifStmt _ c bs => get_named_leaf c ++ leaves_list bs
  | .forStmt _ i c u b =>
      leaves_opt i ++ leaves_opt c ++ leaves_opt u ++ get_named_leaf b

def leaves_list : List CNode → List CNode
  | [] => []
  | e :: es => get_named_leaf e ++ leaves_list es

def leaves_opt : Option CNode → List CNode
  | none => []
  | some e => get_named_leaf e

end

def MODE : List String := ["r", "w", "d", "o"]

/-- Whether the first character list is a prefix of the second. -/
def chars_prefix : List Char → List Char → Bool
  | [], _ => true
  | _ :: _, [] => false
  | a :: as, b :: bs => a = b && chars_prefix as bs

/-- Whether the first character list occurs inside the second. -/
def chars_sub (needle : List Char) : List Char → Bool
  | [] => chars_prefix needle []
  | b :: t => chars_prefix needle (b :: t) || chars_sub needle t

/-- `"declarator" in self.type` (Python substring test). -/
def contains_declarator (ty : String) : Bool := chars_sub "declarator".data ty.data

/-- The per-child mode used by `expression_statement` / `comma_expression`
under default mode `"o"`. -/
def stmt_child_mode (n : CNode) : String :=
  if typeOf n ∈ ["identifier", "subscript_expression", "pointer_expression"] then "d"
  else if typeOf n = "comma_expression" ∨ typeOf n = "assignment_expression" then "o"
  else "r"

/-- The merge loop of `IfStatement.simulate_data_flow`: merge-and-pop every
collected branch frame into the current if scope. -/
def mergeBranchFrames : List Frame → Chain → Except String Chain
  | [], c => .ok c
  | bf :: bfs, c =>
    match merge_and_pop_self (bf :: c) with
    | .error e => .error e
    | .ok c1 => mergeBranchFrames bfs c1

mutual

/-- `simulate_data_flow`, fueled.  Dispatch follows the elif-chain of
`NormalNode.simulate_data_flow` plus the dedicated statement classes of
c_parser.py; the state is the live scope chain together with every node's
`last_read`/`last_write` sets; raising becomes `Except.error`. -/
def simulate : Nat → CNode → Chain → NodeMap → String → Except String (Chain × NodeMap)
  | 0, _, _, _, _ => .error "out of fuel"
  | fuel + 1, n, c, σ, mode =>
    match n with
    | .compound _ stmts =>
      -- CompoundStatement: push a scope, simulate children, pop
      match simulateSeq fuel stmts (Frame.mk [] [] :: c) σ mode with
      | .error e => .error e
      | .ok (c1, σ1) =>
        match pop_self c1 with
        | .error e => .error e
        | .ok c2 => .ok (c2, σ1)
    | .ifStmt _ cnd branches =>
      -- IfStatement: push the if scope, simulate the condition with the
      -- inherited mode, simulate every branch in its own fresh child of the
      -- if scope, then merge-and-pop each branch frame, then pop the if scope
      match simulate fuel cnd (Frame.mk [] [] :: c) σ mode with
      | .error e => .error e
      | .ok (c1, σ1) =>
        match simBranches fuel branches c1 σ1 mode with
        | .error e => .error e
        | .ok (bfs, c2, σ2) =>
          match mergeBranchFrames bfs c2 with
          | .error e => .error e
          | .ok c3 =>
            match pop_self c3 with
            | .error e => .error e
            | .ok c4 => .ok (c4, σ2)
    | .forStmt _ ini cnd upd body =>
      -- ForStatement: push; initializer once; condition "r"; body; update;
      -- condition "r"; body; pop (condition and body twice, update once)
      match (match ini with
             | none => .ok (Frame.mk [] [] :: c, σ)
             | some i => simulate fuel i (Frame.mk [] [] :: c) σ
                 (if typeOf i = "identifier" ∨ typeOf i = "pointer_expression"
                  then "r" else mode) : Except String (Chain × NodeMap)) with
      | .error e => .error e
      | .ok (c1, σ1) =>
        match (match cnd with
               | none => .ok (c1, σ1)
               | some cn => simulate fuel cn c1 σ1 "r" : Except String (Chain × NodeMap)) with
        | .error e => .error e
        | .ok (c2, σ2) =>
          match simulate fuel body c2 σ2 mode with
          | .error e => .error e
          | .ok (c3, σ3) =>
            match (match upd with
                   | none => .ok (c3, σ3)
                   | some up => simulate fuel up c3 σ3
                       (if typeOf up = "identifier" ∨ typeOf up = "pointer_expression"
                        then "r" else mode) : Except String (Chain × NodeMap)) with
            | .error e => .error e
            | .ok (c4, σ4) =>
              match (match cnd with
                     | none => .ok (c4, σ4)
                     | some cn => simulate fuel cn c4 σ4 "r" : Except String (Chain × NodeMap)) with
              | .error e => .error e
              | .ok (c5, σ5) =>
                match simulate fuel body c5 σ5 mode with
                | .error e => .error e
                | .ok (c6, σ6) =>
                  match pop_self c6 with
                  | .error e => .error e
                  | .ok c7 => .ok (c7, σ6)
    | _ =>
      -- NormalNode.simulate_data_flow: reject modes outside MODE first
      if mode ∈ MODE then
        match n with
        | .ident idx tok =>
          if mode = "r" then find_and_update c σ tok idx "ro"
          else if mode = "w" then find_and_update c σ tok idx "wo"
          else if mode = "d" then .ok (add_reference c tok idx, σ)
          else .error ("Something Wrong " ++ mode)
        | .num _ => .ok (c, σ)
        | .prim _ => .ok (c, σ)
        | .binop _ l r =>
          match simulate fuel l c σ "r" with
          | .error e => .error e
          | .ok (c1, σ1) => simulate fuel r c1 σ1 "r"
        | .assign idx lhs rhs =>
          -- right-hand side first, always with "r"
          match simulate fuel rhs c σ "r" with
          | .error e => .error e
          | .ok (c1, σ1) =>
            if typeOf lhs ∈ ["identifier", "subscript_expression",
                "pointer_expression", "field_expression"] then
              simulate fuel lhs c1 σ1
                (if mode = "d" ∨ find_left_most (.assign idx lhs rhs) then "d" else "w")
            else
              -- the parenthesized_expression unwrap is outside this fragment
              .error (typeOf lhs ++ " not implemented for assignment_expression")
        | .updateExpr _ e =>
          match get_named_leaf e with
          | [] => .error "update expression without operand"
          | v :: _ =>
            match find_reference c (tokOf v) with
            | (none, _) => .error "unit is None"
            | (some u, c1) =>
              let s := σ (idxOf v)
              let σ1 := updNode σ (idxOf v)
                ⟨insert (idxOf v) (s.last_read ∪ u.lr),
                 insert (idxOf v) (s.last_write ∪ u.lw)⟩
              .ok (write_unit c1 (tokOf v) ⟨{idxOf v}, {idxOf v}⟩, σ1)
        | .condExpr _ a b cc =>
          -- if_table = vt.add_variable_table(); condition with "r"
          match simulate fuel a (Frame.mk [] [] :: c) σ "r" with
          | .error e => .error e
          | .ok (c1, σ1) =>
            -- consequence_table = VariableTable(if_table)
            match simulate fuel b (Frame.mk [] [] :: c1) σ1 "r" with
            | .error e => .error e
            | .ok ([], _) => .error "empty chain"
            | .ok (consFrame :: c2, σ2) =>
              -- alternative_table = VariableTable(if_table)
              match simulate fuel cc (Frame.mk [] [] :: c2) σ2 "r" with
              | .error e => .error e
              | .ok ([], _) => .error "empty chain"
              | .ok (_altFrame :: c3, σ3) =>
                -- consequence_table.merge_and_pop_self(); the alternative
                -- table only receives a fresh child
                -- (alternative_table.add_variable_table()) and is dropped;
                -- if_table.pop_self()
                match merge_and_pop_self (consFrame :: c3) with
                | .error e => .error e
                | .ok c4 =>
                  match pop_self c4 with
                  | .error e => .error e
                  | .ok c5 => .ok (c5, σ3)
        | .exprStmt _ es =>
          if mode = "o" then simulateStmtDefault fuel es c σ
          else if mode = "r" then simulateSeq fuel es c σ "r"
          else .error ("Expression statement encounter mode " ++ mode)
        | .declStmt _ ds => simulateDecl fuel ds c σ
        | .initDecl _ l r =>
          match simulate fuel l c σ "d" with
          | .error e => .error e
          | .ok (c1, σ1) => simulate fuel r c1 σ1 "r"
        | _ => .error "unreachable"
      else .error ("mode " ++ mode ++ " is not available for data flow simulation")

/-- Simulate a list of children sequentially with one shared mode. -/
def simulateSeq : Nat → List CNode → Chain → NodeMap → String →
    Except String (Chain × NodeMap)
  | 0, _, _, _, _ => .error "out of fuel"
  | _ + 1, [], c, σ, _ => .ok (c, σ)
  | fuel + 1, e :: es, c, σ, mode =>
    match simulate fuel e c σ mode with
    | .error er => .error er
    | .ok (c1, σ1) => simulateSeq fuel es c1 σ1 mode

/-- The `expression_statement` loop under mode `"o"`: statement-level
identifiers/subscripts/pointer expressions get `"d"`, comma and assignment
expressions get `"o"`, everything else `"r"`. -/
def simulateStmtDefault : Nat → List CNode → Chain → NodeMap →
    Except String (Chain × NodeMap)
  | 0, _, _, _ => .error "out of fuel"
  | _ + 1, [], c, σ => .ok (c, σ)
  | fuel + 1, e :: es, c, σ =>
    match simulate fuel e c σ (stmt_child_mode e) with
    | .error er => .error er
    | .ok (c1, σ1) => simulateStmtDefault fuel es c1 σ1

/-- The `declaration` loop: declare the identifier / declarator children,
skip other children (type specifiers). -/
def simulateDecl : Nat → List CNode → Chain → NodeMap →
    Except String (Chain × NodeMap)
  | 0, _, _, _ => .error "out of fuel"
  | _ + 1, [], c, σ => .ok (c, σ)
  | fuel + 1, d :: ds, c, σ =>
    if typeOf d = "identifier" ∨ contains_declarator (typeOf d) then
      match simulate fuel d c σ "d" with
      | .error er => .error er
      | .ok (c1, σ1) => simulateDecl fuel ds c1 σ1
    else simulateDecl fuel ds c σ

/-- The branch loop of `IfStatement.simulate_data_flow`: each branch gets a
fresh child of the if scope, simulated before any merge happens; the branch
frames are collected for the merge loop. -/
def simBranches : Nat → List CNode → Chain → NodeMap → String →
    Except String (List Frame × Chain × NodeMap)
  | 0, _, _, _, _ => .error "out of fuel"
  | _ + 1, [], c, σ, _ => .ok ([], c, σ)
  | fuel + 1, b :: bs, c, σ, mode =>
    match simulate fuel b (Frame.mk [] [] :: c) σ mode with
    | .error e => .error e
    | .ok ([], _) => .error "empty chain"
    | .ok (bf :: ct, σ1) =>
      match simBranches fuel bs ct σ1 mode with
      | .error e => .error e
      | .ok (bfs, c2, σ2) => .ok (bf :: bfs, c2, σ2)

end

/-- The first component of a successful result: the final scope chain. -/
def chain_of (r : Except String (Chain × NodeMap)) : Option Chain :=
  (r.toOption).map Prod.fst

/-- The analysis state of node `i` in a successful result. -/
def state_at (r : Except String (Chain × NodeMap)) (i : Nat) : Option NodeState :=
  (r.toOption).map (fun p => p.2 i)

/-- The `lr` set of the unit a token currently resolves to, if any. -/
def resolved_lr (c : Chain) (t : String) : Option (Finset Nat) :=
  ((find_reference c t).1).map VUnit.lr

/-- The `lw` set of the unit a token currently resolves to, if any. -/
def resolved_lw (c : Chain) (t : String) : Option (Finset Nat) :=
  ((find_reference c t).1).map VUnit.lw

/-- Modelled from the claim wording for the for statement: push a fresh
scope, simulate the initializer (if present) once, then simulate the sequence
condition (mode Read), loop body, update (mode Read) twice, then pop with the
ordinary (non-union) merge.  Stated only for comparison against the
source-derived `simulate`, which simulates the update once, between the two
condition/body passes. -/
def for_simulate_claimed (fuel : Nat) (ini cnd upd : Option CNode) (body : CNode)
    (c : Chain) (σ : NodeMap) (mode : String) : Except String (Chain × NodeMap) :=
  match (match ini with
         | none => .ok (Frame.mk [] [] :: c, σ)
         | some i => simulate fuel i (Frame.mk [] [] :: c) σ
             (if typeOf i = "identifier" ∨ typeOf i = "pointer_expression"
              then "r" else mode) : Except String (Chain × NodeMap)) with
  | .error e => .error e
  | .ok (c1, σ1) =>
    match for_claimed_pass fuel cnd upd body c1 σ1 mode with
    | .error e => .error e
    | .ok (c2, σ2) =>
      match for_claimed_pass fuel cnd upd body c2 σ2 mode with
      | .error e => .error e
      | .ok (c3, σ3) =>
        match pop_self c3 with
        | .error e => .error e
        | .ok c4 => .ok (c4, σ3)
where
  for_claimed_pass (fuel : Nat) (cnd upd : Option CNode) (body : CNode)
      (c : Chain) (σ : NodeMap) (mode : String) : Except String (Chain × NodeMap) :=
    match (match cnd with
           | none => .ok (c, σ)
           | some cn => simulate fuel cn c σ "r" : Except String (Chain × NodeMap)) with
    | .error e => .error e
    | .ok (c1, σ1) =>
      match simulate fuel body c1 σ1 mode with
      | .error e => .error e
      | .ok (c2, σ2) =>
        match (match upd with
               | none => .ok (c2, σ2)
               | some up => simulate fuel up c2 σ2 "r" : Except String (Chain × NodeMap)) with
        | .error e => .error e
        | .ok (c3, σ3) => .ok (c3, σ3)

/-! ## Node.assign_idx: the pre-order index assignment pass -/

/-- A shadow tree node, reduced to its `idx` field and its children. -/
inductive STree where
  | node (idx : Nat) (children : List STree)

mutual

/-- `Node.assign_idx`: set this node's index to `idx`, then assign each child
in order starting one past the last index used so far; return the updated
tree and the last index used. -/
def assign_idx : STree → Nat → STree × Nat
  | .node _ cs, idx =>
    let r := assign_children cs idx
    (.node idx r.1, r.2)

/-- The loop of `assign_idx` over the children (`last_idx` threading). -/
def assign_children : List STree → Nat → List STree × Nat
  | [], last => ([], last)
  | t :: ts, last =>
    let r1 := assign_idx t (last + 1)
    let r2 := assign_children ts r1.2
    (r1.1 :: r2.1, r2.2)

end

mutual

/-- Number of nodes of the tree. -/
def size : STree → Nat
  | .node _ cs => 1 + size_list cs

def size_list : List STree → Nat
  | [] => 0
  | t :: ts => size t + size_list ts

end

mutual

/-- All indices of the tree, in pre-order. -/
def indices : STree → List Nat
  | .node i cs => i :: indices_list cs

def indices_list : List STree → List Nat
  | [] => []
  | t :: ts => indices t ++ indices_list ts

end

/-- The index of the root node. -/
def rootIdx : STree → Nat
  | .node i _ => i

mutual

/-- Every node's index is strictly below the index of each of its
descendants. -/
def preorder_ok : STree → Bool
  | .node i cs => (indices_list cs).all (fun j => i < j) && preorder_list_ok cs

def preorder_list_ok : List STree → Bool
  | [] => true
  | t :: ts => preorder_ok t && preorder_list_ok ts

end

mutual

/-- After `assign_idx t k`, the pre-order index list is exactly the
contiguous range of length `size t` starting at `k`, and the returned last
index is the end of that range. -/
theorem assign_idx_range : ∀ (t : STree) (k : Nat),
    indices (assign_idx t k).1 = List.range' k (size t) ∧
    (assign_idx t k).2 + 1 = k + size t
  | .node i cs, k => by
    have h := assign_children_range cs k
    refine ⟨?_, ?_⟩
    · simp only [assign_idx, indices, size, h.1]
      rw [Nat.add_comm 1 (size_list cs), List.range'_succ]
    · simp only [assign_idx, size]
      have h2 := h.2
      omega

/-- The child loop of `assign_idx`, entered with accumulator `last`, indexes
the children's subtrees with the contiguous range starting at `last + 1`. -/
theorem assign_children_range : ∀ (cs : List STree) (last : Nat),
    indices_list (assign_children cs last).1 = List.range' (last + 1) (size_list cs) ∧
    (assign_children cs last).2 = last + size_list cs
  | [], last => by simp [assign_children, indices_list, size_list]
  | t :: ts, last => by
    have h1 := assign_idx_range t (last + 1)
    have h2 := assign_children_range ts (assign_idx t (last + 1)).2
    refine ⟨?_, ?_⟩
    · simp only [assign_children, indices_list, size_list, h1.1, h2.1]
      have hs : (assign_idx t (last + 1)).2 + 1 = last + 1 + size t := h1.2
      rw [hs, List.range'_append_1, Nat.add_comm (size_list ts) (size t)]
    · simp only [assign_children, size_list]
      have hs := h1.2
      have hh := h2.2
      omega

end

mutual

/-- After index assignment every node's index is strictly below each of its
descendants' indices. -/
theorem assign_idx_preorder : ∀ (t : STree) (k : Nat),
    preorder_ok (assign_idx t k).1 = true
  | .node i cs, k => by
    have h := assign_children_range cs k
    have hrec := assign_children_preorder cs k
    simp only [assign_idx, preorder_ok, Bool.and_eq_true, List.all_eq_true]
    refine ⟨fun j hj => ?_, hrec⟩
    rw [h.1] at hj
    simp only [List.mem_range'_1] at hj
    simp only [decide_eq_true_eq]
    omega

theorem assign_children_preorder : ∀ (cs : List STree) (last : Nat),
    preorder_list_ok (assign_children cs last).1 = true
  | [], _ => by simp [assign_children, preorder_list_ok]
  | t :: ts, last => by
    simp only [assign_children, preorder_list_ok, Bool.and_eq_true]
    exact ⟨assign_idx_preorder t (last + 1),
      assign_children_preorder ts (assign_idx t (last + 1)).2⟩

end

/-- A raw parse-tree node as delivered by the external parser. -/
inductive Raw where
  | mk (ty : String) (children : List Raw)

def tyOfRaw : Raw → String
  | .mk ty _ => ty

/-- A constructed shadow node (only the parts construction itself shapes). -/
inductive Shadow where
  | mk (ty : String) (children : List Shadow)

mutual

/-- The c_parser.py Node initializer: raise on an ERROR production, then
construct the children recursively, skipping comment / preproc_arg
children. -/
def buildC : Raw → Except String Shadow
  | .mk ty children =>
    if ty = "ERROR" then .error "Encounter Error type. Tree construct stopped"
    else
      match buildCList children with
      | .error e => .error e
      | .ok cs => .ok (.mk ty cs)

def buildCList : List Raw → Except String (List Shadow)
  | [] => .ok []
  | r :: rs =>
    if tyOfRaw r = "comment" ∨ tyOfRaw r = "preproc_arg" then buildCList rs
    else
      match buildC r with
      | .error e => .error e
      | .ok s =>
        match buildCList rs with
        | .error e => .error e
        | .ok ss => .ok (s :: ss)

end

mutual

/-- The cpp_parser.py Node initializer: identical construction, except that
it performs no ERROR check at all. -/
def buildCpp : Raw → Except String Shadow
  | .mk ty children =>
    match buildCppList children with
    | .error e => .error e
    | .ok cs => .ok (.mk ty cs)

def buildCppList : List Raw → Except String (List Shadow)
  | [] => .ok []
  | r :: rs =>
    if tyOfRaw r = "comment" ∨ tyOfRaw r = "preproc_arg" then buildCppList rs
    else
      match buildCpp r with
      | .error e => .error e
      | .ok s =>
        match buildCppList rs with
        | .error e => .error e
        | .ok ss => .ok (s :: ss)

end

mutual

/-- Whether the raw tree contains an ERROR production at a position the
constructor visits (comment / preproc_arg subtrees are skipped). -/
def has_error : Raw → Bool
  | .mk ty children => ty = "ERROR" || has_error_list children

def has_error_list : List Raw → Bool
  | [] => false
  | r :: rs =>
    (!(tyOfRaw r = "comment" || tyOfRaw r = "preproc_arg") && has_error r) ||
      has_error_list rs

end

/-! ## Claim theorems -/

/-- C6: after shadow-tree construction, the single pre-order pass started at
the root assigns the root index 0, produces exactly the index list
`0, ..., N-1` (each value used once), and gives every node an index strictly
below the index of each of its descendants. -/
theorem assign_idx_contiguous_preorder (t : STree) :
    rootIdx (assign_idx t 0).1 = 0 ∧
    indices (assign_idx t 0).1 = List.range (size t) ∧
    (indices (assign_idx t 0).1).Nodup ∧
    preorder_ok (assign_idx t 0).1 = true := by
  have h := assign_idx_range t 0
  refine ⟨?_, ?_, ?_, assign_idx_preorder t 0⟩
  · cases t with
    | node i cs => simp [assign_idx, rootIdx]
  · rw [h.1, List.range_eq_range']
  · rw [h.1]
    exact List.nodup_range' 0 (size t)

/-- C10: for each special identifier (cin, cout, endl), find_and_update
returns immediately: no lookup, no possible error even for undeclared names
or invalid modes, and no change to the node states or any scope; and
add_reference creates no binding. -/
theorem special_tokens_no_effect (tok : String) (h : tok ∈ SPECIAL_TOKENS)
    (c : Chain) (σ : NodeMap) (n : Nat) (mode : String) :
    find_and_update c σ tok n mode = .ok (c, σ) ∧ add_reference c tok n = c :=
  ⟨by simp [find_and_update, h], by simp [add_reference, h]⟩

/-- Witness for C10: cin, in an empty table (cin was never declared), with a
mode string that is not even a valid update mode. -/
theorem special_tokens_no_effect_witness :
    ("cin" ∈ SPECIAL_TOKENS) ∧
      (find_and_update [] (fun _ => ⟨∅, ∅⟩) "cin" 0 "xx" = .ok ([], fun _ => ⟨∅, ∅⟩) ∧
        add_reference [] "cin" 0 = []) :=
  ⟨by decide, special_tokens_no_effect "cin" (by decide) [] (fun _ => ⟨∅, ∅⟩) 0 "xx"⟩

theorem pop_into_total (fouters : Dict) :
    ∀ (l : List (String × VUnit)) (g : Frame), (∀ p ∈ l, p ∈ fouters) →
      ∃ g1, pop_into fouters l g = .ok g1 := by
  intro l
  induction l with
  | nil => exact fun g _ => ⟨g, rfl⟩
  | cons p l ih =>
    intro g hmem
    obtain ⟨tok, u⟩ := p
    by_cases hl : (dlookup g.locals tok).isSome
    · obtain ⟨g1, hg⟩ :=
        ih { g with locals := dinsert g.locals tok u }
          (fun q hq => hmem q (List.mem_cons_of_mem _ hq))
      refine ⟨g1, ?_⟩
      simp only [pop_into, if_pos hl]
      exact hg
    · have hf : (dlookup fouters tok).isSome :=
        dlookup_isSome_of_mem (hmem (tok, u) (List.mem_cons_self _ _))
      obtain ⟨g1, hg⟩ :=
        ih { g with outers := dinsert g.outers tok u }
          (fun q hq => hmem q (List.mem_cons_of_mem _ hq))
      refine ⟨g1, ?_⟩
      simp only [pop_into, if_neg hl, if_pos hf]
      exact hg

/-- C9: pop_self never raises on any table with a father: every token
iterated from the popped scope's own outer cache passes the second
membership test (the source re-checks the same outer cache, not the
father's), so the error branch is unreachable and each inherited unit lands
in the father's locals or the father's outers. -/
theorem pop_self_never_fails (f g : Frame) (rest : Chain) :
    ∃ g1, pop_self (f :: g :: rest) = .ok (g1 :: rest) := by
  obtain ⟨g1, hg⟩ := pop_into_total f.outers f.outers g (fun p hp => hp)
  exact ⟨g1, by simp [pop_self, hg]⟩

/-- C8 counterexample: the C++ parser initializer has no ERROR check, so
constructing a raw tree that is itself an ERROR production succeeds instead
of raising. -/
theorem cpp_build_accepts_error_tree :
    buildCpp (Raw.mk "ERROR" []) = .ok (Shadow.mk "ERROR" []) ∧
      has_error (Raw.mk "ERROR" []) = true :=
  ⟨by simp [buildCpp, buildCppList], by simp [has_error]⟩

mutual

theorem c_build_error_aux : ∀ (r : Raw), has_error r = true →
    ∃ e, buildC r = .error e
  | .mk ty children, h => by
    by_cases hty : ty = "ERROR"
    · exact ⟨"Encounter Error type. Tree construct stopped", by simp [buildC, hty]⟩
    · simp only [has_error, Bool.or_eq_true, decide_eq_true_eq] at h
      rcases h with h | h
      · exact absurd h hty
      · obtain ⟨e, he⟩ := c_buildList_error_aux children h
        exact ⟨e, by simp [buildC, hty, he]⟩

theorem c_buildList_error_aux : ∀ (rs : List Raw), has_error_list rs = true →
    ∃ e, buildCList rs = .error e
  | r :: rs, h => by
    simp only [has_error_list, Bool.or_eq_true, Bool.and_eq_true, Bool.not_eq_eq_eq_not,
      Bool.not_true, Bool.or_eq_false_iff, decide_eq_false_iff_not] at h
    by_cases hskip : tyOfRaw r = "comment" ∨ tyOfRaw r = "preproc_arg"
    · rcases h with ⟨⟨hn1, hn2⟩, _⟩ | h
      · exact absurd hskip (by simp [hn1, hn2])
      · obtain ⟨e, he⟩ := c_buildList_error_aux rs h
        exact ⟨e, by simp [buildCList, hskip, he]⟩
    · rcases h with ⟨_, herr⟩ | h
      · obtain ⟨e, he⟩ := c_build_error_aux r herr
        exact ⟨e, by simp [buildCList, hskip, he]⟩
      · obtain ⟨e, he⟩ := c_buildList_error_aux rs h
        cases hb : buildC r with
        | error e2 => exact ⟨e2, by simp [buildCList, hskip, hb]⟩
        | ok s => exact ⟨e, by simp [buildCList, hskip, hb, he]⟩

end

/-- C8 amended: in the C parser, shadow-tree construction of any raw tree
with a reachable ERROR production (outside skipped comment / preproc_arg
children) raises during construction, hence before any simulation can have
started; the C++ parser performs no such check. -/
theorem c_build_rejects_error_tree (r : Raw) (h : has_error r = true) :
    ∃ e, buildC r = .error e :=
  c_build_error_aux r h

/-- Witness for C8 amended: a well-typed root with an ERROR child. -/
theorem c_build_rejects_error_tree_witness :
    has_error (Raw.mk "translation_unit" [Raw.mk "ERROR" []]) = true ∧
      ∃ e, buildC (Raw.mk "translation_unit" [Raw.mk "ERROR" []]) = .error e :=
  ⟨by simp [has_error, has_error_list, tyOfRaw],
    c_build_rejects_error_tree _ (by simp [has_error, has_error_list, tyOfRaw])⟩

/-- C5: on the conditional expression with condition node 2 and branch reads
of x at nodes 3 (consequence) and 4 (alternative), the source merges only
the consequence table into the condition scope and drops the alternative
table (it calls add_variable_table on it instead of merge_and_pop_self), so
after the expression the unit for x records the consequence read 3 but not
the alternative read 4. -/
theorem condExpr_alternative_dropped :
    (chain_of (simulate 20
        (CNode.condExpr 1 (CNode.num 2) (CNode.ident 3 "x") (CNode.ident 4 "x"))
        [Frame.mk [("x", ⟨{0}, {0}⟩)] []] (fun _ => ⟨∅, ∅⟩) "r")).map
        (fun c => resolved_lr c "x") = some (some {0, 3}) ∧
      3 ∈ ({0, 3} : Finset Nat) ∧ 4 ∉ ({0, 3} : Finset Nat) := by
  decide

/-- C4 counterexample: on for (int i = 0; i < 2; y++) { z = y; } with y and
z pre-declared (nodes 90 and 91), the source runs the update exactly once,
between the two condition/body passes, so after the loop the unit of y has
last_read from the second body read (node 16); the claimed order, which runs
condition, body, update twice, would leave last_read at the update node 11
instead. -/
theorem for_update_once_counterexample :
    ((chain_of (simulate 30
        (CNode.forStmt 1
          (some (CNode.declStmt 2 [CNode.prim 3, CNode.initDecl 4 (CNode.ident 5 "i") (CNode.num 6)]))
          (some (CNode.binop 7 (CNode.ident 8 "i") (CNode.num 9)))
          (some (CNode.updateExpr 10 (CNode.ident 11 "y")))
          (CNode.compound 12 [CNode.exprStmt 13
            [CNode.assign 14 (CNode.ident 15 "z") (CNode.ident 16 "y")]]))
        [Frame.mk [("y", ⟨{90}, {90}⟩), ("z", ⟨{91}, {91}⟩)] []]
        (fun _ => ⟨∅, ∅⟩) "o")).map (fun c => resolved_lr c "y") = some (some {16})) ∧
    ((chain_of (for_simulate_claimed 30
          (some (CNode.declStmt 2 [CNode.prim 3, CNode.initDecl 4 (CNode.ident 5 "i") (CNode.num 6)]))
          (some (CNode.binop 7 (CNode.ident 8 "i") (CNode.num 9)))
          (some (CNode.updateExpr 10 (CNode.ident 11 "y")))
          (CNode.compound 12 [CNode.exprStmt 13
            [CNode.assign 14 (CNode.ident 15 "z") (CNode.ident 16 "y")]])
        [Frame.mk [("y", ⟨{90}, {90}⟩), ("z", ⟨{91}, {91}⟩)] []]
        (fun _ => ⟨∅, ∅⟩) "o")).map (fun c => resolved_lr c "y") = some (some {11})) ∧
    ({16} : Finset Nat) ≠ {11} := by
  refine ⟨by decide, by decide, by decide⟩

/-- C1: when a non-special name resolves to a unit, find_and_update first
attaches (unions) the unit's last-read / last-write sets onto the node's own
sets, then updates the unit by mode: ro replaces the unit's last_read with
the node only, wo replaces last_write only, rw replaces both; any mode
outside these three raises. -/
theorem find_and_update_modes (c c1 : Chain) (σ : NodeMap) (tok : String) (node : Nat)
    (u : VUnit) (hs : tok ∉ SPECIAL_TOKENS) (hr : find_reference c tok = (some u, c1)) :
    (∃ c2 σ2, find_and_update c σ tok node "ro" = .ok (c2, σ2) ∧
      (σ2 node).last_read = (σ node).last_read ∪ u.lr ∧
      (σ2 node).last_write = (σ node).last_write ∪ u.lw ∧
      find_reference c2 tok = (some ⟨{node}, u.lw⟩, c2)) ∧
    (∃ c2 σ2, find_and_update c σ tok node "wo" = .ok (c2, σ2) ∧
      (σ2 node).last_read = (σ node).last_read ∪ u.lr ∧
      (σ2 node).last_write = (σ node).last_write ∪ u.lw ∧
      find_reference c2 tok = (some ⟨u.lr, {node}⟩, c2)) ∧
    (∃ c2 σ2, find_and_update c σ tok node "rw" = .ok (c2, σ2) ∧
      (σ2 node).last_read = (σ node).last_read ∪ u.lr ∧
      (σ2 node).last_write = (σ node).last_write ∪ u.lw ∧
      find_reference c2 tok = (some ⟨{node}, {node}⟩, c2)) ∧
    (∀ m, m ∉ UPDATE_MODE →
      find_and_update c σ tok node m = .error (m ++ " is not an available update mode")) := by
  obtain ⟨g, rest, hc1, hg⟩ := find_reference_shape hr
  subst hc1
  have key : ∀ m, m ∈ UPDATE_MODE → find_and_update c σ tok node m =
      .ok (write_unit (g :: rest) tok
          (if m = "ro" then ⟨{node}, u.lw⟩
           else if m = "wo" then ⟨u.lr, {node}⟩ else ⟨{node}, {node}⟩),
        updNode σ node ⟨(σ node).last_read ∪ u.lr, (σ node).last_write ∪ u.lw⟩) := by
    intro m hm
    simp only [find_and_update, if_neg hs, hr, if_pos hm]
  refine ⟨⟨_, _, key "ro" (by simp [UPDATE_MODE]), by simp [updNode], by simp [updNode], ?_⟩,
    ⟨_, _, key "wo" (by simp [UPDATE_MODE]), by simp [updNode], by simp [updNode], ?_⟩,
    ⟨_, _, key "rw" (by simp [UPDATE_MODE]), by simp [updNode], by simp [updNode], ?_⟩, ?_⟩
  · simpa using find_reference_write_unit hg rest ⟨{node}, u.lw⟩
  · simpa using find_reference_write_unit hg rest ⟨u.lr, {node}⟩
  · simpa using find_reference_write_unit hg rest ⟨{node}, {node}⟩
  · intro m hm
    simp only [find_and_update, if_neg hs, hr, if_neg hm]

/-- The concrete table of the C1 witness: one frame binding a to the unit
({1}, {2}). -/
def fauWitnessChain : Chain := [Frame.mk [("a", ⟨{1}, {2}⟩)] []]

/-- The concrete node states of the C1 witness: all empty. -/
def fauWitnessMap : NodeMap := fun _ => ⟨∅, ∅⟩

/-- Witness for C1: the table above, updated at node 5. -/
theorem find_and_update_modes_witness :
    (("a" : String) ∉ SPECIAL_TOKENS ∧
      find_reference fauWitnessChain "a" = (some ⟨{1}, {2}⟩, fauWitnessChain)) ∧
    ((∃ c2 σ2, find_and_update fauWitnessChain fauWitnessMap "a" 5 "ro" = .ok (c2, σ2) ∧
      (σ2 5).last_read = (fauWitnessMap 5).last_read ∪ (⟨{1}, {2}⟩ : VUnit).lr ∧
      (σ2 5).last_write = (fauWitnessMap 5).last_write ∪ (⟨{1}, {2}⟩ : VUnit).lw ∧
      find_reference c2 "a" = (some ⟨{5}, {2}⟩, c2)) ∧
    (∃ c2 σ2, find_and_update fauWitnessChain fauWitnessMap "a" 5 "wo" = .ok (c2, σ2) ∧
      (σ2 5).last_read = (fauWitnessMap 5).last_read ∪ (⟨{1}, {2}⟩ : VUnit).lr ∧
      (σ2 5).last_write = (fauWitnessMap 5).last_write ∪ (⟨{1}, {2}⟩ : VUnit).lw ∧
      find_reference c2 "a" = (some ⟨{1}, {5}⟩, c2)) ∧
    (∃ c2 σ2, find_and_update fauWitnessChain fauWitnessMap "a" 5 "rw" = .ok (c2, σ2) ∧
      (σ2 5).last_read = (fauWitnessMap 5).last_read ∪ (⟨{1}, {2}⟩ : VUnit).lr ∧
      (σ2 5).last_write = (fauWitnessMap 5).last_write ∪ (⟨{1}, {2}⟩ : VUnit).lw ∧
      find_reference c2 "a" = (some ⟨{5}, {5}⟩, c2)) ∧
    (∀ m, m ∉ UPDATE_MODE →
      find_and_update fauWitnessChain fauWitnessMap "a" 5 m =
        .error (m ++ " is not an available update mode"))) :=
  ⟨⟨by decide, by decide⟩,
    find_and_update_modes fauWitnessChain fauWitnessChain fauWitnessMap "a" 5 ⟨{1}, {2}⟩
      (by decide) (by decide)⟩

/-- Resolvability of a token only depends on the head frame through its two
dicts at that token. -/
theorem find_reference_head_congr (f1 f2 : Frame) (t : String) (rest : Chain)
    (h1 : dlookup f1.locals t = dlookup f2.locals t)
    (h2 : dlookup f1.outers t = dlookup f2.outers t) :
    (find_reference (f1 :: rest) t).1 = (find_reference (f2 :: rest) t).1 := by
  simp only [find_reference, h1, h2]
  cases dlookup f2.locals t with
  | some v => rfl
  | none =>
    cases dlookup f2.outers t with
    | some v => rfl
    | none =>
      cases hr : find_reference rest t with
      | mk r rest' => cases r <;> simp

/-- C2: exiting a nested scope by pop (no merge): a name declared only in
the nested scope stops being resolvable from the enclosing scope, while a
name that existed before entry and was updated inside (hence lazily cached
in the nested scope's outer dict) has the updated unit written back into the
parent's binding. -/
theorem pop_locality_and_writeback (c c1 : Chain) (σ : NodeMap)
    (tokL tokO : String) (nL nO : Nat) (u : VUnit)
    (hLs : tokL ∉ SPECIAL_TOKENS) (hOs : tokO ∉ SPECIAL_TOKENS) (hne : tokL ≠ tokO)
    (hL : (find_reference c tokL).1 = none)
    (hO : find_reference c tokO = (some u, c1)) :
    ∃ cf σf,
      ((find_and_update (add_reference (Frame.mk [] [] :: c) tokL nL) σ tokO nO "wo").bind
        (fun p => (pop_self p.1).map (fun c3 => (c3, p.2)))) = .ok (cf, σf) ∧
      (find_reference cf tokL).1 = none ∧
      find_reference cf tokO = (some ⟨u.lr, {nO}⟩, cf) := by
  obtain ⟨g, rest, hc1, hg⟩ := find_reference_shape hO
  subst hc1
  have hAdd : add_reference (Frame.mk [] [] :: c) tokL nL =
      Frame.mk [(tokL, ⟨{nL}, {nL}⟩)] [] :: c := by
    simp [add_reference, hLs, dinsert]
  have hFR : find_reference (Frame.mk [(tokL, ⟨{nL}, {nL}⟩)] [] :: c) tokO =
      (some u, Frame.mk [(tokL, ⟨{nL}, {nL}⟩)] [(tokO, u)] :: g :: rest) := by
    simp only [find_reference, dlookup, if_neg hne, hO, dinsert]
  have hFau : find_and_update (Frame.mk [(tokL, ⟨{nL}, {nL}⟩)] [] :: c) σ tokO nO "wo" =
      .ok (Frame.mk [(tokL, ⟨{nL}, {nL}⟩)] [(tokO, ⟨u.lr, {nO}⟩)] :: g :: rest,
        updNode σ nO ⟨(σ nO).last_read ∪ u.lr, (σ nO).last_write ∪ u.lw⟩) := by
    simp only [find_and_update, if_neg hOs, hFR,
      if_pos (show ("wo" : String) ∈ UPDATE_MODE by simp [UPDATE_MODE])]
    simp [write_unit, dlookup, if_neg hne, dinsert]
  have hLg : (find_reference (g :: rest) tokL).1 = none := by
    have h := find_reference_other (c := c) (t := tokO) tokL hne
    rw [hO] at h
    exact h.trans hL
  rcases hg with hgl | ⟨hgl, hgo⟩
  · -- the parent binding is local in the parent frame
    have hpop : pop_self (Frame.mk [(tokL, ⟨{nL}, {nL}⟩)] [(tokO, ⟨u.lr, {nO}⟩)] :: g :: rest) =
        .ok ({ g with locals := dinsert g.locals tokO ⟨u.lr, {nO}⟩ } :: rest) := by
      simp [pop_self, pop_into, hgl]
    refine ⟨{ g with locals := dinsert g.locals tokO ⟨u.lr, {nO}⟩ } :: rest,
      updNode σ nO ⟨(σ nO).last_read ∪ u.lr, (σ nO).last_write ∪ u.lw⟩,
      by rw [hAdd, hFau]; simp [Except.bind, Except.map, hpop], ?_, ?_⟩
    · have hcongr := find_reference_head_congr
        { g with locals := dinsert g.locals tokO ⟨u.lr, {nO}⟩ } g
        tokL rest (by simp [dlookup_dinsert_ne _ hne]) (by simp)
      exact hcongr.trans hLg
    · exact find_reference_head_locals (by simp [dlookup_dinsert_self]) rest
  · -- the parent binding sits in the parent frame's outer cache
    have hpop : pop_self (Frame.mk [(tokL, ⟨{nL}, {nL}⟩)] [(tokO, ⟨u.lr, {nO}⟩)] :: g :: rest) =
        .ok ({ g with outers := dinsert g.outers tokO ⟨u.lr, {nO}⟩ } :: rest) := by
      simp [pop_self, pop_into, hgl, dlookup]
    refine ⟨{ g with outers := dinsert g.outers tokO ⟨u.lr, {nO}⟩ } :: rest,
      updNode σ nO ⟨(σ nO).last_read ∪ u.lr, (σ nO).last_write ∪ u.lw⟩,
      by rw [hAdd, hFau]; simp [Except.bind, Except.map, hpop], ?_, ?_⟩
    · have hcongr := find_reference_head_congr
        { g with outers := dinsert g.outers tokO ⟨u.lr, {nO}⟩ } g
        tokL rest (by simp) (by simp [dlookup_dinsert_ne _ hne])
      exact hcongr.trans hLg
    · exact find_reference_head_outers (by simpa using hgl) (by simp [dlookup_dinsert_self]) rest

/-- The pre-existing scope of the C2 witness: the outer variable b is bound
in the enclosing frame with unit ({7}, {7}); the locally declared name a is
nowhere. -/
def popWitnessChain : Chain := [Frame.mk [("b", ⟨{7}, {7}⟩)] []]

/-- The concrete node states of the C2 witness: all empty. -/
def popWitnessMap : NodeMap := fun _ => ⟨∅, ∅⟩

/-- Witness for C2: declare a (node 1) in the nested scope, write b
(node 2) there, pop. -/
theorem pop_locality_and_writeback_witness :
    ((("a" : String) ∉ SPECIAL_TOKENS) ∧ (("b" : String) ∉ SPECIAL_TOKENS) ∧
      ("a" : String) ≠ "b" ∧
      (find_reference popWitnessChain "a").1 = none ∧
      find_reference popWitnessChain "b" = (some ⟨{7}, {7}⟩, popWitnessChain)) ∧
    (∃ cf σf,
      ((find_and_update (add_reference (Frame.mk [] [] :: popWitnessChain) "a" 1)
          popWitnessMap "b" 2 "wo").bind
        (fun p => (pop_self p.1).map (fun c3 => (c3, p.2)))) = .ok (cf, σf) ∧
      (find_reference cf "a").1 = none ∧
      find_reference cf "b" = (some ⟨{7}, {2}⟩, cf)) :=
  ⟨⟨by decide, by decide, by decide, by decide, by decide⟩,
    pop_locality_and_writeback popWitnessChain popWitnessChain popWitnessMap "a" "b" 1 2
      ⟨{7}, {7}⟩ (by decide) (by decide) (by decide) (by decide) (by decide)⟩

/-- C7: an update expression whose single identifier operand resolves to a
unit: simulation attaches the unit's last-read / last-write sets onto the
operand node, afterwards the node's own sets each contain the node itself,
and the unit's last_read and last_write are both replaced by the singleton
of the node (simultaneous read-then-write). -/
theorem update_expression_self_edge (c c1 : Chain) (σ : NodeMap) (tok : String)
    (i iv : Nat) (u : VUnit) (mode : String) (hm : mode ∈ MODE)
    (hr : find_reference c tok = (some u, c1)) :
    ∃ c2 σ2, simulate 1 (CNode.updateExpr i (CNode.ident iv tok)) c σ mode = .ok (c2, σ2) ∧
      (σ2 iv).last_read = insert iv ((σ iv).last_read ∪ u.lr) ∧
      (σ2 iv).last_write = insert iv ((σ iv).last_write ∪ u.lw) ∧
      iv ∈ (σ2 iv).last_read ∧ iv ∈ (σ2 iv).last_write ∧
      find_reference c2 tok = (some ⟨{iv}, {iv}⟩, c2) := by
  obtain ⟨g, rest, hc1, hg⟩ := find_reference_shape hr
  subst hc1
  have key : simulate 1 (CNode.updateExpr i (CNode.ident iv tok)) c σ mode =
      .ok (write_unit (g :: rest) tok ⟨{iv}, {iv}⟩,
        updNode σ iv ⟨insert iv ((σ iv).last_read ∪ u.lr),
          insert iv ((σ iv).last_write ∪ u.lw)⟩) := by
    simp only [simulate, if_pos hm, get_named_leaf, tokOf, idxOf, hr]
  exact ⟨_, _, key, by simp [updNode], by simp [updNode], by simp [updNode],
    by simp [updNode], find_reference_write_unit hg rest _⟩

/-- The table of the C7 witness: one frame binding i with unit ({1}, {2}). -/
def updWitnessChain : Chain := [Frame.mk [("i", ⟨{1}, {2}⟩)] []]

/-- The node states of the C7 witness: all empty. -/
def updWitnessMap : NodeMap := fun _ => ⟨∅, ∅⟩

/-- Witness for C7: i++ with operand node 4, statement-default mode. -/
theorem update_expression_self_edge_witness :
    (("o" : String) ∈ MODE ∧
      find_reference updWitnessChain "i" = (some ⟨{1}, {2}⟩, updWitnessChain)) ∧
    (∃ c2 σ2, simulate 1 (CNode.updateExpr 3 (CNode.ident 4 "i")) updWitnessChain
        updWitnessMap "o" = .ok (c2, σ2) ∧
      (σ2 4).last_read = insert 4 ((updWitnessMap 4).last_read ∪ (⟨{1}, {2}⟩ : VUnit).lr) ∧
      (σ2 4).last_write = insert 4 ((updWitnessMap 4).last_write ∪ (⟨{1}, {2}⟩ : VUnit).lw) ∧
      4 ∈ (σ2 4).last_read ∧ 4 ∈ (σ2 4).last_write ∧
      find_reference c2 "i" = (some ⟨{4}, {4}⟩, c2)) :=
  ⟨⟨by decide, by decide⟩,
    update_expression_self_edge updWitnessChain updWitnessChain updWitnessMap "i" 3 4
      ⟨{1}, {2}⟩ "o" (by decide) (by decide)⟩

/-- Popping a scope whose outer cache holds exactly one token always
succeeds and leaves that token resolving to the written-back unit at the
father. -/
theorem pop_self_singleton (X : Dict) (t : String) (U : VUnit) (g : Frame) (rest : Chain) :
    ∃ g1, pop_self (Frame.mk X [(t, U)] :: g :: rest) = .ok (g1 :: rest) ∧
      find_reference (g1 :: rest) t = (some U, g1 :: rest) ∧
      ∀ t2, t2 ≠ t → dlookup g1.locals t2 = dlookup g.locals t2 ∧
        dlookup g1.outers t2 = dlookup g.outers t2 := by
  by_cases hl : (dlookup g.locals t).isSome
  · refine ⟨{ g with locals := dinsert g.locals t U }, ?_, ?_, ?_⟩
    · simp [pop_self, pop_into, hl]
    · exact find_reference_head_locals (by simp [dlookup_dinsert_self]) rest
    · exact fun t2 h2 => ⟨by simp [dlookup_dinsert_ne _ h2], by simp⟩
  · have hln : dlookup g.locals t = none := Option.not_isSome_iff_eq_none.mp hl
    refine ⟨{ g with outers := dinsert g.outers t U }, ?_, ?_, ?_⟩
    · simp [pop_self, pop_into, hl, dlookup]
    · exact find_reference_head_outers (by simpa using hln)
        (by simp [dlookup_dinsert_self]) rest
    · exact fun t2 h2 => ⟨by simp, by simp [dlookup_dinsert_ne _ h2]⟩

/-- Simulating the branch compound statement x = k (write node w) in a
fresh child of a chain where x resolves to v: the write caches through, the
branch frame ends with the single outer binding x to (v.lr, w), and the
write node attaches the prior unit. -/
theorem sim_branch_assign_x (fuel i3 i4 i5 i7 w : Nat) (Z Z' : Chain) (σ : NodeMap)
    (v : VUnit) (hv : find_reference Z "x" = (some v, Z')) :
    simulate (fuel + 6) (CNode.compound i3 [CNode.exprStmt i4
        [CNode.assign i5 (CNode.ident w "x") (CNode.num i7)]])
      (Frame.mk [] [] :: Z) σ "o" =
    .ok (Frame.mk [] [("x", ⟨v.lr, {w}⟩)] :: Z',
      updNode σ w ⟨(σ w).last_read ∪ v.lr, (σ w).last_write ∪ v.lw⟩) := by
  have hv2 : find_reference (Frame.mk [] [] :: Frame.mk [] [] :: Z) "x" =
      (some v, Frame.mk [] [("x", v)] :: Frame.mk [] [("x", v)] :: Z') := by
    simp only [find_reference, dlookup, hv, dinsert]
  have hfau : find_and_update (Frame.mk [] [] :: Frame.mk [] [] :: Z) σ "x" w "wo" =
      .ok (Frame.mk [] [("x", ⟨v.lr, {w}⟩)] :: Frame.mk [] [("x", v)] :: Z',
        updNode σ w ⟨(σ w).last_read ∪ v.lr, (σ w).last_write ∪ v.lw⟩) := by
    simp only [find_and_update, hv2,
      if_neg (show ("x" : String) ∉ SPECIAL_TOKENS by decide),
      if_pos (show ("wo" : String) ∈ UPDATE_MODE by simp [UPDATE_MODE])]
    simp [write_unit, dlookup, dinsert]
  have hpop : pop_self (Frame.mk [] [("x", ⟨v.lr, {w}⟩)] :: Frame.mk [] [("x", v)] :: Z') =
      .ok (Frame.mk [] [("x", ⟨v.lr, {w}⟩)] :: Z') := by
    simp [pop_self, pop_into, dlookup, dinsert]
  simp [simulate, simulateSeq, simulateStmtDefault, stmt_child_mode, typeOf,
    find_left_most, leftmost_type, MODE, hfau, hpop]

/-- C3: an if statement whose two branches each write the pre-existing
variable x (nodes 6 and 11): every branch simulates in its own child scope
seeded from the pre-branch state, both branch effects are merged by union
into the if scope and popped outward, so a subsequent read of x (node 13)
holds BOTH branch write nodes in its last_write set. -/
theorem if_branch_union (c c1 : Chain) (σ : NodeMap) (u : VUnit)
    (hr : find_reference c "x" = (some u, c1)) :
    ∃ ci σi c2 σ2,
      simulate 9 (CNode.ifStmt 1 (CNode.num 2)
          [CNode.compound 3 [CNode.exprStmt 4
            [CNode.assign 5 (CNode.ident 6 "x") (CNode.num 7)]],
           CNode.compound 8 [CNode.exprStmt 9
            [CNode.assign 10 (CNode.ident 11 "x") (CNode.num 12)]]]) c σ "o" = .ok (ci, σi) ∧
      find_and_update ci σi "x" 13 "ro" = .ok (c2, σ2) ∧
      6 ∈ (σ2 13).last_write ∧ 11 ∈ (σ2 13).last_write := by
  obtain ⟨g, rest, hc1, hg⟩ := find_reference_shape hr
  subst hc1
  have hv1 : find_reference (Frame.mk [] [] :: c) "x" =
      (some u, Frame.mk [] [("x", u)] :: g :: rest) := by
    simp only [find_reference, dlookup, hr, dinsert]
  have hb1 := sim_branch_assign_x 1 3 4 5 7 6 (Frame.mk [] [] :: c)
    (Frame.mk [] [("x", u)] :: g :: rest) σ u hv1
  have hv2 : find_reference (Frame.mk [] [("x", u)] :: g :: rest) "x" =
      (some u, Frame.mk [] [("x", u)] :: g :: rest) :=
    find_reference_head_outers (by simp [dlookup]) (by simp [dlookup]) _
  have hb2 := sim_branch_assign_x 0 8 9 10 12 11 (Frame.mk [] [("x", u)] :: g :: rest)
    (Frame.mk [] [("x", u)] :: g :: rest)
    (updNode σ 6 ⟨(σ 6).last_read ∪ u.lr, (σ 6).last_write ∪ u.lw⟩) u hv2
  have hmerge1 : merge_and_pop_self (Frame.mk [] [("x", ⟨u.lr, {6}⟩)] ::
      Frame.mk [] [("x", u)] :: g :: rest) =
      .ok (Frame.mk [] [("x", ⟨u.lr, u.lw ∪ {6}⟩)] :: g :: rest) := by
    simp [merge_and_pop_self, merge_into, dlookup, dinsert]
  have hmerge2 : merge_and_pop_self (Frame.mk [] [("x", ⟨u.lr, {11}⟩)] ::
      Frame.mk [] [("x", ⟨u.lr, u.lw ∪ {6}⟩)] :: g :: rest) =
      .ok (Frame.mk [] [("x", ⟨u.lr, u.lw ∪ ({6} ∪ {11})⟩)] :: g :: rest) := by
    simp [merge_and_pop_self, merge_into, dlookup, dinsert]
  obtain ⟨g1, hpop, hfind, _⟩ :=
    pop_self_singleton [] "x" ⟨u.lr, u.lw ∪ ({6} ∪ {11})⟩ g rest
  have hbr : simBranches 8
      [CNode.compound 3 [CNode.exprStmt 4
        [CNode.assign 5 (CNode.ident 6 "x") (CNode.num 7)]],
       CNode.compound 8 [CNode.exprStmt 9
        [CNode.assign 10 (CNode.ident 11 "x") (CNode.num 12)]]]
      (Frame.mk [] [] :: c) σ "o" =
      .ok ([Frame.mk [] [("x", ⟨u.lr, {6}⟩)], Frame.mk [] [("x", ⟨u.lr, {11}⟩)]],
        Frame.mk [] [("x", u)] :: g :: rest,
        updNode (updNode σ 6 ⟨(σ 6).last_read ∪ u.lr, (σ 6).last_write ∪ u.lw⟩) 11
          ⟨((updNode σ 6 ⟨(σ 6).last_read ∪ u.lr, (σ 6).last_write ∪ u.lw⟩) 11).last_read ∪ u.lr,
           ((updNode σ 6 ⟨(σ 6).last_read ∪ u.lr, (σ 6).last_write ∪ u.lw⟩) 11).last_write ∪ u.lw⟩) := by
    simp [simBranches, hb1, hb2]
  have hmerges : mergeBranchFrames
      [Frame.mk [] [("x", ⟨u.lr, {6}⟩)], Frame.mk [] [("x", ⟨u.lr, {11}⟩)]]
      (Frame.mk [] [("x", u)] :: g :: rest) =
      .ok (Frame.mk [] [("x", ⟨u.lr, u.lw ∪ ({6} ∪ {11})⟩)] :: g :: rest) := by
    simp [mergeBranchFrames, hmerge1, hmerge2]
  have hsim : simulate 9 (CNode.ifStmt 1 (CNode.num 2)
      [CNode.compound 3 [CNode.exprStmt 4
        [CNode.assign 5 (CNode.ident 6 "x") (CNode.num 7)]],
       CNode.compound 8 [CNode.exprStmt 9
        [CNode.assign 10 (CNode.ident 11 "x") (CNode.num 12)]]]) c σ "o" =
      .ok (g1 :: rest,
        updNode (updNode σ 6 ⟨(σ 6).last_read ∪ u.lr, (σ 6).last_write ∪ u.lw⟩) 11
          ⟨((updNode σ 6 ⟨(σ 6).last_read ∪ u.lr, (σ 6).last_write ∪ u.lw⟩) 11).last_read ∪ u.lr,
           ((updNode σ 6 ⟨(σ 6).last_read ∪ u.lr, (σ 6).last_write ∪ u.lw⟩) 11).last_write ∪ u.lw⟩) := by
    simp [simulate, MODE, hbr, hmerges, hpop]
  have hatt : ∀ σ' : NodeMap, find_and_update (g1 :: rest) σ' "x" 13 "ro" =
      .ok (write_unit (g1 :: rest) "x" ⟨{13}, u.lw ∪ ({6} ∪ {11})⟩,
        updNode σ' 13 ⟨(σ' 13).last_read ∪ u.lr,
          (σ' 13).last_write ∪ (u.lw ∪ ({6} ∪ {11}))⟩) := by
    intro σ'
    simp only [find_and_update, if_neg (show ("x" : String) ∉ SPECIAL_TOKENS by decide),
      hfind, if_pos (show ("ro" : String) ∈ UPDATE_MODE by simp [UPDATE_MODE])]
    simp
  exact ⟨_, _, _, _, hsim, hatt _, by simp [updNode], by simp [updNode]⟩

/-- The pre-existing scope of the C3 witness: x declared at node 0. -/
def ifWitnessChain : Chain := [Frame.mk [("x", ⟨{0}, {0}⟩)] []]

/-- The node states of the C3 witness: all empty. -/
def ifWitnessMap : NodeMap := fun _ => ⟨∅, ∅⟩

/-- Witness for C3: if (c) { x = 1; } else { x = 2; } then a read of x. -/
theorem if_branch_union_witness :
    (find_reference ifWitnessChain "x" = (some ⟨{0}, {0}⟩, ifWitnessChain)) ∧
    (∃ ci σi c2 σ2,
      simulate 9 (CNode.ifStmt 1 (CNode.num 2)
          [CNode.compound 3 [CNode.exprStmt 4
            [CNode.assign 5 (CNode.ident 6 "x") (CNode.num 7)]],
           CNode.compound 8 [CNode.exprStmt 9
            [CNode.assign 10 (CNode.ident 11 "x") (CNode.num 12)]]])
        ifWitnessChain ifWitnessMap "o" = .ok (ci, σi) ∧
      find_and_update ci σi "x" 13 "ro" = .ok (c2, σ2) ∧
      6 ∈ (σ2 13).last_write ∧ 11 ∈ (σ2 13).last_write) :=
  ⟨by decide, if_branch_union ifWitnessChain ifWitnessChain ifWitnessMap ⟨{0}, {0}⟩ (by decide)⟩

/-- One-level unfolding of find_reference through a frame that misses the
token: delegate to the tail, then cache the hit. -/
theorem find_reference_cons (f : Frame) (rest : Chain) (t : String)
    (hl : dlookup f.locals t = none) (ho : dlookup f.outers t = none)
    {u : VUnit} {rest' : Chain} (h : find_reference rest t = (some u, rest')) :
    find_reference (f :: rest) t =
      (some u, { f with outers := dinsert f.outers t u } :: rest') := by
  simp only [find_reference, hl, ho, h]

/-- The condition i < n of the C4 for loop: reads i (node 8) from the loop
frame's locals and points the unit's last_read at the read node. -/
theorem for_cond_step (fo : Dict) (v : VUnit) (Z : Chain) : ∀ σ : NodeMap,
    simulate 7 (CNode.binop 7 (CNode.ident 8 "i") (CNode.num 9))
      (Frame.mk [("i", v)] fo :: Z) σ "r" =
    .ok (Frame.mk [("i", ⟨{8}, v.lw⟩)] fo :: Z,
      updNode σ 8 ⟨(σ 8).last_read ∪ v.lr, (σ 8).last_write ∪ v.lw⟩) := by
  intro σ
  have hfr : find_reference (Frame.mk [("i", v)] fo :: Z) "i" =
      (some v, Frame.mk [("i", v)] fo :: Z) :=
    find_reference_head_locals (by simp [dlookup]) Z
  have hfau : find_and_update (Frame.mk [("i", v)] fo :: Z) σ "i" 8 "ro" =
      .ok (Frame.mk [("i", ⟨{8}, v.lw⟩)] fo :: Z,
        updNode σ 8 ⟨(σ 8).last_read ∪ v.lr, (σ 8).last_write ∪ v.lw⟩) := by
    simp only [find_and_update, if_neg (show ("i" : String) ∉ SPECIAL_TOKENS by decide),
      hfr, if_pos (show ("ro" : String) ∈ UPDATE_MODE by simp [UPDATE_MODE])]
    simp [write_unit, dlookup, dinsert]
  simp [simulate, MODE, hfau]

/-- The update i++ of the C4 for loop (node 10, operand node 11): attaches
the unit and replaces both of its sets by the operand node. -/
theorem for_upd_step (fo : Dict) (v : VUnit) (Z : Chain) : ∀ σ : NodeMap,
    simulate 7 (CNode.updateExpr 10 (CNode.ident 11 "i"))
      (Frame.mk [("i", v)] fo :: Z) σ "o" =
    .ok (Frame.mk [("i", ⟨{11}, {11}⟩)] fo :: Z,
      updNode σ 11 ⟨insert 11 ((σ 11).last_read ∪ v.lr),
        insert 11 ((σ 11).last_write ∪ v.lw)⟩) := by
  intro σ
  have hfr : find_reference (Frame.mk [("i", v)] fo :: Z) "i" =
      (some v, Frame.mk [("i", v)] fo :: Z) :=
    find_reference_head_locals (by simp [dlookup]) Z
  have hmode : ("o" : String) ∈ MODE := by simp [GraphPC.MODE]
  simp only [simulate, if_pos hmode, get_named_leaf, tokOf, idxOf, hfr]
  simp [write_unit, dlookup, dinsert]

/-- The body { y = i; } of the C4 for loop (write node 15, read node 16):
run in a fresh child of the loop frame, it reads i from the loop locals,
writes y through the lazy caches, and pops its own frame back into the loop
frame. -/
theorem for_body_step (fo fo' : Dict) (v w : VUnit) (Z Z' : Chain)
    (hy : find_reference (Frame.mk [("i", v)] fo :: Z) "y" =
      (some w, Frame.mk [("i", v)] fo' :: Z')) : ∀ σ : NodeMap,
    simulate 7 (CNode.compound 12 [CNode.exprStmt 13
        [CNode.assign 14 (CNode.ident 15 "y") (CNode.ident 16 "i")]])
      (Frame.mk [("i", v)] fo :: Z) σ "o" =
    .ok (Frame.mk [("i", ⟨{16}, v.lw⟩)] (dinsert fo' "y" ⟨w.lr, {15}⟩) :: Z',
      updNode (updNode σ 16 ⟨(σ 16).last_read ∪ v.lr, (σ 16).last_write ∪ v.lw⟩) 15
        ⟨((updNode σ 16 ⟨(σ 16).last_read ∪ v.lr, (σ 16).last_write ∪ v.lw⟩) 15).last_read ∪ w.lr,
         ((updNode σ 16 ⟨(σ 16).last_read ∪ v.lr, (σ 16).last_write ∪ v.lw⟩) 15).last_write ∪ w.lw⟩) := by
  intro σ
  have hfri : find_reference (Frame.mk [] [] :: Frame.mk [("i", v)] fo :: Z) "i" =
      (some v, Frame.mk [] [("i", v)] :: Frame.mk [("i", v)] fo :: Z) := by
    simp [find_reference, dlookup, dinsert]
  have hfau16 : find_and_update (Frame.mk [] [] :: Frame.mk [("i", v)] fo :: Z) σ "i" 16 "ro" =
      .ok (Frame.mk [] [("i", ⟨{16}, v.lw⟩)] :: Frame.mk [("i", v)] fo :: Z,
        updNode σ 16 ⟨(σ 16).last_read ∪ v.lr, (σ 16).last_write ∪ v.lw⟩) := by
    simp only [find_and_update, if_neg (show ("i" : String) ∉ SPECIAL_TOKENS by decide),
      hfri, if_pos (show ("ro" : String) ∈ UPDATE_MODE by simp [UPDATE_MODE])]
    simp [write_unit, dlookup, dinsert]
  have hfry : find_reference (Frame.mk [] [("i", ⟨{16}, v.lw⟩)] ::
      Frame.mk [("i", v)] fo :: Z) "y" =
      (some w, Frame.mk [] [("i", ⟨{16}, v.lw⟩), ("y", w)] ::
        Frame.mk [("i", v)] fo' :: Z') := by
    have h1 := find_reference_cons (Frame.mk [] [("i", ⟨{16}, v.lw⟩)])
      (Frame.mk [("i", v)] fo :: Z) "y" (by simp [dlookup]) (by simp [dlookup]) hy
    simpa [dinsert] using h1
  have hfau15 : ∀ σ1 : NodeMap, find_and_update (Frame.mk [] [("i", ⟨{16}, v.lw⟩)] ::
      Frame.mk [("i", v)] fo :: Z) σ1 "y" 15 "wo" =
      .ok (Frame.mk [] [("i", ⟨{16}, v.lw⟩), ("y", ⟨w.lr, {15}⟩)] ::
        Frame.mk [("i", v)] fo' :: Z',
        updNode σ1 15 ⟨(σ1 15).last_read ∪ w.lr, (σ1 15).last_write ∪ w.lw⟩) := by
    intro σ1
    simp only [find_and_update, if_neg (show ("y" : String) ∉ SPECIAL_TOKENS by decide),
      hfry, if_pos (show ("wo" : String) ∈ UPDATE_MODE by simp [UPDATE_MODE])]
    simp [write_unit, dlookup, dinsert]
  have hpop : pop_self (Frame.mk [] [("i", ⟨{16}, v.lw⟩), ("y", ⟨w.lr, {15}⟩)] ::
      Frame.mk [("i", v)] fo' :: Z') =
      .ok (Frame.mk [("i", ⟨{16}, v.lw⟩)] (dinsert fo' "y" ⟨w.lr, {15}⟩) :: Z') := by
    simp [pop_self, pop_into, dlookup, dinsert]
  simp [simulate, simulateSeq, simulateStmtDefault, stmt_child_mode, typeOf,
    find_left_most, leftmost_type, MODE, hfau16, hfau15, hpop]

/-- Sequencing lemma for the ForStatement arm with all three clauses
present: the source order is initializer, condition, body, update,
condition, body, then pop. -/
theorem simulate_for_some (fuel : Nat) (i0 : Nat) (ini cnd upd body : CNode) (c : Chain)
    (σ : NodeMap) (mode mi mu : String)
    {c1 c2 c3 c4 c5 c6 c7 : Chain} {σ1 σ2 σ3 σ4 σ5 σ6 : NodeMap}
    (hmi : mi = if typeOf ini = "identifier" ∨ typeOf ini = "pointer_expression"
      then "r" else mode)
    (hmu : mu = if typeOf upd = "identifier" ∨ typeOf upd = "pointer_expression"
      then "r" else mode)
    (h1 : simulate fuel ini (Frame.mk [] [] :: c) σ mi = .ok (c1, σ1))
    (h2 : simulate fuel cnd c1 σ1 "r" = .ok (c2, σ2))
    (h3 : simulate fuel body c2 σ2 mode = .ok (c3, σ3))
    (h4 : simulate fuel upd c3 σ3 mu = .ok (c4, σ4))
    (h5 : simulate fuel cnd c4 σ4 "r" = .ok (c5, σ5))
    (h6 : simulate fuel body c5 σ5 mode = .ok (c6, σ6))
    (h7 : pop_self c6 = .ok c7) :
    simulate (fuel + 1) (CNode.forStmt i0 (some ini) (some cnd) (some upd) body) c σ mode =
      .ok (c7, σ6) := by
  subst hmi
  subst hmu
  simp only [simulate, h1, h2, h3, h4, h5, h6, h7]

/-- C4 amended: for (int i = 0; i < n; i++) { y = i; } with y pre-existing:
the source simulates initializer once, then condition, body, update,
condition, body (update once, condition and body twice), pops with the
ordinary merge, and a post-loop read of y (node 17) carries the body
assignment (node 15) in its last_write set. -/
theorem for_body_write_reaches_post_loop_read (c c1 : Chain) (σ : NodeMap) (u : VUnit)
    (hr : find_reference c "y" = (some u, c1)) :
    ∃ cf σf c2 σ2,
      simulate 8 (CNode.forStmt 1
        (some (CNode.declStmt 2 [CNode.prim 3, CNode.initDecl 4 (CNode.ident 5 "i") (CNode.num 6)]))
        (some (CNode.binop 7 (CNode.ident 8 "i") (CNode.num 9)))
        (some (CNode.updateExpr 10 (CNode.ident 11 "i")))
        (CNode.compound 12 [CNode.exprStmt 13
          [CNode.assign 14 (CNode.ident 15 "y") (CNode.ident 16 "i")]])) c σ "o" = .ok (cf, σf) ∧
      find_and_update cf σf "y" 17 "ro" = .ok (c2, σ2) ∧
      15 ∈ (σ2 17).last_write := by
  obtain ⟨g, rest, hc1, hg⟩ := find_reference_shape hr
  subst hc1
  have hini : simulate 7 (CNode.declStmt 2
      [CNode.prim 3, CNode.initDecl 4 (CNode.ident 5 "i") (CNode.num 6)])
      (Frame.mk [] [] :: c) σ "o" =
      .ok (Frame.mk [("i", ⟨{5}, {5}⟩)] [] :: c, σ) := by
    have hnd : contains_declarator "primitive_type" = false := by decide
    have hd : contains_declarator "init_declarator" = true := by decide
    simp [simulate, simulateDecl, typeOf, hnd, hd, MODE, add_reference,
      SPECIAL_TOKENS, dinsert]
  have hcond1 := for_cond_step [] (⟨{5}, {5}⟩ : VUnit) c
  have hy1 : find_reference (Frame.mk [("i", (⟨{8}, {5}⟩ : VUnit))] [] :: c) "y" =
      (some u, Frame.mk [("i", (⟨{8}, {5}⟩ : VUnit))] [("y", u)] :: g :: rest) := by
    have h1 := find_reference_cons (Frame.mk [("i", (⟨{8}, {5}⟩ : VUnit))] []) c "y"
      (by simp [dlookup]) (by simp [dlookup]) hr
    simpa [dinsert] using h1
  have hbody1 := for_body_step [] [("y", u)] (⟨{8}, {5}⟩ : VUnit) u c (g :: rest) hy1
  have hupd := for_upd_step [("y", ⟨u.lr, {15}⟩)] (⟨{16}, {5}⟩ : VUnit) (g :: rest)
  have hcond2 := for_cond_step [("y", ⟨u.lr, {15}⟩)] (⟨{11}, {11}⟩ : VUnit) (g :: rest)
  have hy2 : find_reference (Frame.mk [("i", (⟨{8}, {11}⟩ : VUnit))]
      [("y", ⟨u.lr, {15}⟩)] :: g :: rest) "y" =
      (some ⟨u.lr, {15}⟩, Frame.mk [("i", (⟨{8}, {11}⟩ : VUnit))]
        [("y", ⟨u.lr, {15}⟩)] :: g :: rest) :=
    find_reference_head_outers (by simp [dlookup]) (by simp [dlookup]) _
  have hbody2 := for_body_step [("y", ⟨u.lr, {15}⟩)] [("y", ⟨u.lr, {15}⟩)]
    (⟨{8}, {11}⟩ : VUnit) ⟨u.lr, {15}⟩ (g :: rest) (g :: rest) hy2
  obtain ⟨g1, hpop, hfind, _⟩ :=
    pop_self_singleton [("i", (⟨{16}, {11}⟩ : VUnit))] "y" ⟨u.lr, {15}⟩ g rest
  simp only [dinsert] at hbody1 hbody2
  simp at hbody1 hbody2
  have hatt : ∀ σ' : NodeMap, find_and_update (g1 :: rest) σ' "y" 17 "ro" =
      .ok (write_unit (g1 :: rest) "y" ⟨{17}, {15}⟩,
        updNode σ' 17 ⟨(σ' 17).last_read ∪ u.lr, (σ' 17).last_write ∪ {15}⟩) := by
    intro σ'
    simp only [find_and_update, if_neg (show ("y" : String) ∉ SPECIAL_TOKENS by decide),
      hfind, if_pos (show ("ro" : String) ∈ UPDATE_MODE by simp [UPDATE_MODE])]
    simp
  have hfor := simulate_for_some 7 1 _ _ _ _ c σ "o" "o" "o"
    (by simp [typeOf]) (by simp [typeOf]) hini (hcond1 σ) (hbody1 _) (hupd _) (hcond2 _)
    (hbody2 _) hpop
  exact ⟨_, _, _, _, hfor, hatt _, by simp [updNode]⟩

/-- The pre-existing scope of the C4 witness: y declared at node 90. -/
def forWitnessChain : Chain := [Frame.mk [("y", ⟨{90}, {90}⟩)] []]

/-- The node states of the C4 witness: all empty. -/
def forWitnessMap : NodeMap := fun _ => ⟨∅, ∅⟩

/-- Witness for C4 amended: the canonical loop followed by a read of y. -/
theorem for_body_write_reaches_post_loop_read_witness :
    (find_reference forWitnessChain "y" = (some ⟨{90}, {90}⟩, forWitnessChain)) ∧
    (∃ cf σf c2 σ2,
      simulate 8 (CNode.forStmt 1
        (some (CNode.declStmt 2 [CNode.prim 3, CNode.initDecl 4 (CNode.ident 5 "i") (CNode.num 6)]))
        (some (CNode.binop 7 (CNode.ident 8 "i") (CNode.num 9)))
        (some (CNode.updateExpr 10 (CNode.ident 11 "i")))
        (CNode.compound 12 [CNode.exprStmt 13
          [CNode.assign 14 (CNode.ident 15 "y") (CNode.ident 16 "i")]]))
        forWitnessChain forWitnessMap "o" = .ok (cf, σf) ∧
      find_and_update cf σf "y" 17 "ro" = .ok (c2, σ2) ∧
      15 ∈ (σ2 17).last_write) :=
  ⟨by decide, for_body_write_reaches_post_loop_read forWitnessChain forWitnessChain
    forWitnessMap ⟨{90}, {90}⟩ (by decide)⟩

end GraphPC
